import Mathlib

/-!
# Verification of the TimeZone widget's conversion core

Shallow embedding of the multi-timezone conversion routine of the
TimeZone repository (`convertTimes` / `handleQuickFill` in the
offset-picker variant, plus the input-validation prefix of the free-text
variant's `handleConvert`), together with the ECMAScript host facilities
the code relies on (`Date` parsing and arithmetic, `Intl.DateTimeFormat`
formatting, the host zone database).

Conventions of the embedding:
* Instants are epoch milliseconds as `Int` (ECMAScript time values; the
  app only ever handles values far below 2^53, where JS number
  arithmetic on whole milliseconds is exact, so `Int` is faithful).
* `/` and `%` on `Int` are Euclidean division, which agrees with the
  `Math.floor`-style division ES `Date` arithmetic is specified with,
  since every divisor we use is positive.
* A host timezone is modelled as an offset (minutes east of UTC) that is
  a function of the instant, with at most one offset transition; this
  covers fixed-offset zones and a single daylight-saving boundary, which
  is all the theorems below exercise.  Local→UTC conversion follows the
  ES `LocalTZA(t, false)` rule on wall-clock readings that are neither
  skipped nor repeated (the only ones used here).
-/

namespace TimeZoneApp

/-- Civil (proleptic Gregorian) date-time fields, as manipulated by the
ECMAScript `Date` facilities the widget relies on. -/
structure Civil where
  year : Int
  month : Int
  day : Int
  hour : Int
  minute : Int
  second : Int
deriving DecidableEq

/-- ES `DayFromYear(y)`: the epoch day number of January 1 of year `y`
(1970-01-01 = day 0), exactly the closed form of ECMA-262 §21.4.1. -/
def dayFromYear (y : Int) : Int :=
  365 * (y - 1970) + (y - 1969) / 4 - (y - 1901) / 100 + (y - 1601) / 400

/-- ES `YearFromTime`: the largest `y` with `dayFromYear y ≤ day`,
computed by a Gregorian-mean-year estimate corrected by at most one
(`dayFromYear_bracket` below proves the characterising property). -/
def yearOf (day : Int) : Int :=
  let y0 := 1970 + (400 * day) / 146097
  if day < dayFromYear y0 then y0 - 1
  else if dayFromYear (y0 + 1) ≤ day then y0 + 1
  else y0

/-- ES `InLeapYear`, as the Gregorian rule. -/
def isLeap (y : Int) : Bool :=
  (y % 4 = 0 && y % 100 ≠ 0) || y % 400 = 0

/-- 1 in a leap year, 0 otherwise. -/
def leapDays (y : Int) : Int :=
  if isLeap y then 1 else 0

/-- Cumulative days before month `m` (1-based) in a year with `leap`
extra February days: the month boundary table of ES `MonthFromTime`. -/
def monthStart (leap m : Int) : Int :=
  if m = 1 then 0
  else if m = 2 then 31
  else if m = 3 then 59 + leap
  else if m = 4 then 90 + leap
  else if m = 5 then 120 + leap
  else if m = 6 then 151 + leap
  else if m = 7 then 181 + leap
  else if m = 8 then 212 + leap
  else if m = 9 then 243 + leap
  else if m = 10 then 273 + leap
  else if m = 11 then 304 + leap
  else if m = 12 then 334 + leap
  else 365 + leap

/-- ES `MonthFromTime` (1-based): the month whose day range contains the
given day-within-year. -/
def monthFromDwy (leap dwy : Int) : Int :=
  if dwy < 31 then 1
  else if dwy < 59 + leap then 2
  else if dwy < 90 + leap then 3
  else if dwy < 120 + leap then 4
  else if dwy < 151 + leap then 5
  else if dwy < 181 + leap then 6
  else if dwy < 212 + leap then 7
  else if dwy < 243 + leap then 8
  else if dwy < 273 + leap then 9
  else if dwy < 304 + leap then 10
  else if dwy < 334 + leap then 11
  else 12

/-- ES `MakeDay`: epoch day number of a civil date. -/
def daysFromCivil (y m d : Int) : Int :=
  dayFromYear y + monthStart (leapDays y) m + d - 1

/-- Civil date of an epoch day number: the composition of ES
`YearFromTime`, `MonthFromTime` and `DateFromTime`. -/
def civilFromDays (z : Int) : Int × Int × Int :=
  let y := yearOf z
  let leap := leapDays y
  let dwy := z - dayFromYear y
  let m := monthFromDwy leap dwy
  (y, m, dwy - monthStart leap m + 1)

/-- Number of days in a month, used by the ES date-string grammar to
reject out-of-range days (e.g. `2025-02-30`): the difference of two
consecutive month boundaries (31, 28 + leap, 31, 30, ...). -/
def daysInMonth (y m : Int) : Int :=
  monthStart (leapDays y) (m + 1) - monthStart (leapDays y) m

/-- Civil fields of an epoch-millisecond instant, read in UTC
(ES `YearFromTime`/`MonthFromTime`/... composition; sub-second part is
discarded, as nothing in the widget reads it back). -/
def msToCivil (t : Int) : Civil :=
  let days := t / 86400000
  let rem := t % 86400000
  let ymd := civilFromDays days
  { year := ymd.1, month := ymd.2.1, day := ymd.2.2,
    hour := rem / 3600000,
    minute := (rem % 3600000) / 60000,
    second := (rem % 60000) / 1000 }

/-- Epoch milliseconds of civil fields read as UTC
(ES `MakeDate(MakeDay …, MakeTime …)`). -/
def civilToMs (c : Civil) : Int :=
  daysFromCivil c.year c.month c.day * 86400000
    + c.hour * 3600000 + c.minute * 60000 + c.second * 1000

/-! ## Decimal digit strings

The widget moves dates through strings: `<input type="date">` /
`<input type="time">` values (`YYYY-MM-DD`, `HH:MM`), and
`formatDateTime`'s reconstruction of them from `toISOString` /
`toTimeString`.  We embed the digit runs as `List Char` and do all
splitting by explicit list recursion so that every step is a plain
computable function. -/

/-- Zero-padded decimal rendering of `n` to exactly `w` digits
(the shape `toISOString`, `toTimeString` and the date/time input
elements produce). -/
def padDigits : Nat → Nat → List Char
  | 0, _ => []
  | w + 1, n => padDigits w (n / 10) ++ [Nat.digitChar (n % 10)]

/-- Decimal value of a digit run. -/
def decDigits (l : List Char) : Nat :=
  l.foldl (fun a c => 10 * a + (c.toNat - 48)) 0

/-- Split a character list at every occurrence of `sep`
(the list-level behaviour of `String.split` on one separator). -/
def splitOnChar (sep : Char) : List Char → List (List Char)
  | [] => [[]]
  | a :: l =>
    let r := splitOnChar sep l
    if a = sep then [] :: r
    else
      match r with
      | [] => [[a]]
      | h :: t => (a :: h) :: t

/-- Parse `YYYY-MM-DD` and validate it as a real calendar date, the way
the ES Date Time String Format does for the date part of
`new Date("YYYY-MM-DDTHH:MM:00")`: four, two and two digit fields, month
in 1..12, day in 1..days-in-month; anything else yields an invalid
date. -/
def parseDateChars (l : List Char) : Option (Int × Int × Int) :=
  match splitOnChar '-' l with
  | [ys, ms, ds] =>
    if ys.length = 4 ∧ ms.length = 2 ∧ ds.length = 2
        ∧ (ys ++ ms ++ ds).all Char.isDigit then
      let y : Int := decDigits ys
      let m : Int := decDigits ms
      let d : Int := decDigits ds
      if 1 ≤ m ∧ m ≤ 12 ∧ 1 ≤ d ∧ d ≤ daysInMonth y m then some (y, m, d)
      else none
    else none
  | _ => none

/-- Parse `HH:MM` with hour 00..23 and minute 00..59, the grammar of
`<input type="time">` values and of the time part the code appends
`":00"` seconds to. -/
def parseTimeChars (l : List Char) : Option (Int × Int) :=
  match splitOnChar ':' l with
  | [hs, ms] =>
    if hs.length = 2 ∧ ms.length = 2 ∧ (hs ++ ms).all Char.isDigit then
      let h : Int := decDigits hs
      let m : Int := decDigits ms
      if h ≤ 23 ∧ m ≤ 59 then some (h, m) else none
    else none
  | _ => none

/-- `YYYY-MM-DD` characters of civil fields: the date part of
`toISOString` (valid for years 0..9999, which covers every instant the
theorems touch). -/
def isoDateChars (c : Civil) : List Char :=
  padDigits 4 c.year.toNat
    ++ ('-' :: (padDigits 2 c.month.toNat ++ ('-' :: padDigits 2 c.day.toNat)))

/-- `HH:MM` characters of civil fields: the first five characters of
`toTimeString`. -/
def hmChars (c : Civil) : List Char :=
  padDigits 2 c.hour.toNat ++ (':' :: padDigits 2 c.minute.toNat)

/-! ## Host timezones

The zone database is a facility of the host environment
(`Intl.DateTimeFormat` with an IANA identifier, and the implicit local
zone of `Date`); the repository only consumes it.  We model a zone by
its UTC offset as a step function of the instant with at most one
transition, which subsumes the fixed-offset zones and single
daylight-saving boundaries exercised below. -/

/-- A host civil timezone: offset in minutes east of UTC, `before` the
transition instant and `after` it. -/
structure Zone where
  before : Int
  after : Int
  transition : Int
deriving DecidableEq

/-- A zone with the same offset at every instant. -/
def Zone.fixed (off : Int) : Zone := ⟨off, off, 0⟩

/-- Offset (minutes) of the zone at an instant. -/
def Zone.offsetAt (z : Zone) (t : Int) : Int :=
  if t < z.transition then z.before else z.after

/-- Instant denoted by a local wall-clock reading (epoch-style
milliseconds of the civil fields), the ES `UTC(t)` / `LocalTZA(t, false)`
conversion: try the pre-transition offset first, which reproduces the ES
rule of using the offset before the transition for skipped or repeated
readings, and is exact for unambiguous ones. -/
def Zone.utcFromLocal (z : Zone) (localMs : Int) : Int :=
  let t1 := localMs - z.before * 60000
  if t1 < z.transition then t1 else localMs - z.after * 60000

/-! ## The JavaScript string operations used on the offset labels

`convertTimes` computes
`parseInt(eventTimeZone.replace("UTC", "") || "0")`.  We embed
`String.prototype.replace` with a string pattern (first occurrence
only), the `||` operator's empty-string falsiness, and `parseInt`'s
decimal behaviour (optional sign, longest leading digit run, NaN — here
`none` — when no digit is found).  `parseInt`'s legacy hexadecimal form
cannot arise from any label of the app's fixed enumeration, so it is not
modelled. -/

/-- Remove the first occurrence of `pat` from `l`
(`String.prototype.replace(pat, "")` with a string pattern). -/
def removeFirst (pat : List Char) : List Char → List Char
  | [] => []
  | a :: rest =>
    if pat.isPrefixOf (a :: rest) then (a :: rest).drop pat.length
    else a :: removeFirst pat rest

/-- JS `x || y` on strings: the empty string is falsy. -/
def orElseIfEmpty (l fb : List Char) : List Char :=
  if l = [] then fb else l

/-- Longest leading decimal digit run, or `none` when there is none
(`parseInt` returning `NaN`). -/
def parseIntNat (l : List Char) : Option Nat :=
  let digits := l.takeWhile Char.isDigit
  if digits.isEmpty then none else some (decDigits digits)

/-- ES `parseInt(s)` for decimal inputs: optional sign then digits. -/
def parseIntChars (l : List Char) : Option Int :=
  match l.dropWhile (fun c => c = ' ') with
  | '-' :: rest => (parseIntNat rest).map (fun n => -(n : Int))
  | '+' :: rest => (parseIntNat rest).map (fun n => (n : Int))
  | rest => (parseIntNat rest).map (fun n => (n : Int))

/-- `parseInt(label.replace("UTC", "") || "0")`, the source-offset
extraction of `convertTimes` (`src/unnamed/part_000` line 77, and the
same expression in the picker variant). -/
def offsetHoursOf (tz : String) : Option Int :=
  parseIntChars (orElseIfEmpty (removeFirst ['U', 'T', 'C'] tz.data) ['0'])

/-! ## Data model of the widget -/

/-- A catalog entry (`interface TimeZone` in the source). -/
structure TimeZone where
  name : String
  zone : String
  flag : String
  isLocal : Bool := false
deriving DecidableEq

/-- An output record (`interface ConvertedTime` in the source). -/
structure ConvertedTime extends TimeZone where
  converted : String
  timeOnly : String
  dateOnly : String
deriving DecidableEq

/-- The fixed offset enumeration (`utcOffsets` in the source). -/
def utcOffsets : List String :=
  ["UTC-12", "UTC-11", "UTC-10", "UTC-9", "UTC-8", "UTC-7", "UTC-6",
   "UTC-5", "UTC-4", "UTC-3", "UTC-2", "UTC-1", "UTC", "UTC+1", "UTC+2",
   "UTC+3", "UTC+4", "UTC+5", "UTC+6", "UTC+7", "UTC+8", "UTC+9",
   "UTC+10", "UTC+11", "UTC+12"]

/-- The fixed display catalog (`popularTimeZones` in the source). -/
def popularTimeZones : List TimeZone :=
  [{ name := "New York", zone := "America/New_York", flag := "🇺🇸" },
   { name := "Los Angeles", zone := "America/Los_Angeles", flag := "🇺🇸" },
   { name := "London", zone := "Europe/London", flag := "🇬🇧" },
   { name := "Tokyo", zone := "Asia/Tokyo", flag := "🇯🇵" },
   { name := "Sydney", zone := "Australia/Sydney", flag := "🇦🇺" },
   { name := "Dubai", zone := "Asia/Dubai", flag := "🇦🇪" }]

/-- The component state of the offset-picker variant that the conversion
reads and writes: the three input fields and the displayed result
list. -/
structure AppState where
  eventDate : String
  eventTime : String
  eventTimeZone : String
  convertedTimes : List ConvertedTime
deriving DecidableEq

/-- The host environment facilities consumed per call: the current
instant (`new Date()`), the reported viewer zone identifier
(`Intl.DateTimeFormat().resolvedOptions().timeZone`), the semantics of
the host's local zone (used implicitly by `Date` parsing, `setHours` and
`toTimeString`), and the zone database behind `Intl.DateTimeFormat`
(`none` models an identifier the host rejects with a `RangeError`). -/
structure HostEnv where
  nowMs : Int
  userTimeZone : String
  localZone : Zone
  zoneDB : String → Option Zone

/-! ## Per-zone formatting

The strings below model the `Intl.DateTimeFormat("en-US", …)` output for
the option bags the source passes (abbreviated month, numeric day and
hour, 2-digit minute, 12-hour clock), with the rendering shapes the spec
documents in its examples ("Jun 12", "8:00 AM"). -/

/-- Abbreviated en-US month names. -/
def monthShortNames : List String :=
  ["Jan", "Feb", "Mar", "Apr", "May", "Jun",
   "Jul", "Aug", "Sep", "Oct", "Nov", "Dec"]

/-- Unpadded decimal digits of a natural number (fuel-structured so that
it reduces definitionally). -/
def natCharsAux : Nat → Nat → List Char
  | 0, _ => []
  | fuel + 1, n =>
    if n < 10 then [Nat.digitChar n]
    else natCharsAux fuel (n / 10) ++ [Nat.digitChar (n % 10)]

/-- Unpadded decimal rendering of a natural number. -/
def natString (n : Nat) : String :=
  String.mk (natCharsAux (n + 1) n)

/-- `hour: "numeric"` with `hour12: true`: 12, 1, …, 11. -/
def fmtHour12 (h : Int) : String :=
  natString (if h % 12 = 0 then 12 else (h % 12).toNat)

/-- The am/pm day-period marker. -/
def fmtAmPm (h : Int) : String :=
  if h < 12 then "AM" else "PM"

/-- `minute: "2-digit"`. -/
def fmtMin2 (m : Int) : String :=
  String.mk (padDigits 2 m.toNat)

/-- The `timeOnly` rendering, e.g. "8:00 AM". -/
def fmtTimeOnly (c : Civil) : String :=
  fmtHour12 c.hour ++ ":" ++ fmtMin2 c.minute ++ " " ++ fmtAmPm c.hour

/-- The `dateOnly` rendering, e.g. "Jun 12". -/
def fmtDateOnly (c : Civil) : String :=
  monthShortNames.getD ((c.month - 1).toNat) "" ++ " " ++ natString c.day.toNat

/-- The combined `converted` rendering, e.g. "Jun 12, 2025, 8:00 AM". -/
def fmtConverted (c : Civil) : String :=
  fmtDateOnly c ++ ", " ++ natString c.year.toNat ++ ", " ++ fmtTimeOnly c

/-- The record built for one target zone inside `convertTimes`' map:
the instant's civil fields in that zone, rendered three ways, packaged
with the catalog entry. -/
def formatRecord (z : Zone) (t : Int) (tz : TimeZone) : ConvertedTime :=
  let c := msToCivil (t + z.offsetAt t * 60000)
  { toTimeZone := tz,
    converted := fmtConverted c,
    timeOnly := fmtTimeOnly c,
    dateOnly := fmtDateOnly c }

/-- `Array.prototype.map` over a callback that can throw: the first
failing element aborts the whole batch (the exception propagates out of
the `map` to the surrounding `try`). -/
def mapThrow (f : α → Option β) : List α → Option (List β)
  | [] => some []
  | a :: l =>
    match f a with
    | none => none
    | some b => (mapThrow f l).map (fun r => b :: r)

/-- `allTimeZones`: the viewer-zone record prepended to the catalog,
rebuilt from the host environment on every call. -/
def allTimeZones (env : HostEnv) : List TimeZone :=
  { name := "Your Local Time", zone := env.userTimeZone, flag := "📍",
    isLocal := true } :: popularTimeZones

/-- The formatting loop of `convertTimes`: one record per target zone at
the given adjusted instant; an unresolvable zone identifier throws and
aborts the batch. -/
def formatAll (env : HostEnv) (t : Int) : Option (List ConvertedTime) :=
  mapThrow (fun tz => (env.zoneDB tz.zone).map (fun z => formatRecord z t tz))
    (allTimeZones env)

/-! ## Anchor resolution -/

/-- The civil fields denoted by `` `${eventDate}T${eventTime}:00` ``
when the ES date-time grammar accepts them, `none` when the string is an
invalid date. -/
def parseEventDateTime (d t : String) : Option Civil :=
  match parseDateChars d.data, parseTimeChars t.data with
  | some (y, m, dd), some (hh, mm) =>
    some { year := y, month := m, day := dd, hour := hh, minute := mm,
           second := 0 }
  | _, _ => none

/-- `new Date(`` `${eventDate}T${eventTime}:00` ``).getTime()`: per
ECMA-262, a date-time string without a UTC offset designator is
interpreted in the host's local zone (not as UTC). -/
def eventInstant (env : HostEnv) (d t : String) : Option Int :=
  (parseEventDateTime d t).map (fun c => env.localZone.utcFromLocal (civilToMs c))

/-- The adjusted instant `eventDateTime.getTime() − offsetHours·3600000`
(`adjustedDate` in the source). -/
def anchorMs (env : HostEnv) (d t z : String) : Option Int :=
  (eventInstant env d t).bind
    (fun e => (offsetHoursOf z).map (fun h => e - h * 3600000))

/-- The whole `try` block of `convertTimes`: anchor resolution followed
by the per-zone formatting loop; `none` is a thrown exception (invalid
date reaching a formatter, or an unresolvable zone identifier). -/
def tryConvert (env : HostEnv) (d t z : String) : Option (List ConvertedTime) :=
  (anchorMs env d t z).bind (formatAll env)

/-- `convertTimes` (offset-picker variant) as a state transition, paired
with the console diagnostics it emits: empty date or time returns
silently; a throw inside `try` logs "Conversion error:" and leaves the
state untouched; success replaces the result list. -/
def convertTimesFull (env : HostEnv) (s : AppState) : AppState × List String :=
  if s.eventDate = "" ∨ s.eventTime = "" then (s, [])
  else
    match tryConvert env s.eventDate s.eventTime s.eventTimeZone with
    | some l => ({ s with convertedTimes := l }, [])
    | none => (s, ["Conversion error:"])

/-- `convertTimes`' effect on the component state. -/
def convertTimes (env : HostEnv) (s : AppState) : AppState :=
  (convertTimesFull env s).1

/-! ## Quick-fill helpers -/

/-- `formatDateTime(date)`: the date part of `toISOString` (UTC fields)
paired with the first five characters of `toTimeString` (host-local
fields) — note the two halves deliberately mirror the source's mix of
UTC date and local time. -/
def formatDateTime (env : HostEnv) (t : Int) : String × String :=
  (String.mk (isoDateChars (msToCivil t)),
   String.mk (hmChars (msToCivil (t + env.localZone.offsetAt t * 60000))))

/-- `handleQuickFill(hours)`: `now.setHours(now.getHours() + hours)`
operates on host-local wall-clock fields (adding `hours` to the hour
field and renormalising through the local zone), then `formatDateTime`
writes the new reading back into the date and time fields. -/
def handleQuickFill (env : HostEnv) (hours : Int) (s : AppState) : AppState :=
  let wall := env.nowMs + env.localZone.offsetAt env.nowMs * 60000
    + hours * 3600000
  let t := env.localZone.utcFromLocal wall
  { s with eventDate := (formatDateTime env t).1,
           eventTime := (formatDateTime env t).2 }

/-- A quick-fill followed by the conversion the `useEffect` on the
updated inputs triggers. -/
def quickFillAndConvert (env : HostEnv) (hours : Int) (s : AppState) : AppState :=
  convertTimes env (handleQuickFill env hours s)

/-! ## Input validation of the free-text variant

`handleConvert` of `src/src/App.tsx` (lines 31–50) rejects an empty
input with one message and an unparseable one with another, before any
record is produced.  Its `new Date(eventTime)` accepts the ISO-with-`Z`
shape the app itself documents and generates; host-specific fallback
date formats beyond that grammar are outside the model (no theorem below
depends on them). -/

/-- Parse `YYYY-MM-DDTHH:MM:SSZ` as an absolute UTC instant. -/
def parseIsoZChars (l : List Char) : Option Int :=
  match splitOnChar 'T' l with
  | [d, rest] =>
    if rest.getLast? = some 'Z' then
      match parseDateChars d, splitOnChar ':' rest.dropLast with
      | some (y, m, dd), [hs, mins, ss] =>
        if hs.length = 2 ∧ mins.length = 2 ∧ ss.length = 2
            ∧ (hs ++ mins ++ ss).all Char.isDigit then
          let hh : Int := decDigits hs
          let mm : Int := decDigits mins
          let sec : Int := decDigits ss
          if hh ≤ 23 ∧ mm ≤ 59 ∧ sec ≤ 59 then
            some (civilToMs { year := y, month := m, day := dd, hour := hh,
                              minute := mm, second := sec })
          else none
        else none
      | _, _ => none
    else none
  | _ => none

/-- The validation prefix of the free-text `handleConvert`: the error
message it surfaces for an empty or unparseable input, `none` when the
input passes validation. -/
def handleConvertGuard (eventTime : String) : Option String :=
  if eventTime = "" then some "Please enter an event time"
  else if (parseIsoZChars eventTime.data).isNone then
    some "Invalid date format. Please use ISO format (e.g., 2025-06-12T12:00:00Z) or select a valid date."
  else none

/-! ## Concrete host environments and states

Host zone databases are snapshots of the IANA data the host's
`Intl.DateTimeFormat` resolves, at the instants the respective theorems
exercise; they are parameters of the theorems, not repository code. -/

/-- Host zone database snapshot: offsets of the catalog zones valid
around the spec's example instant 2025-06-12T12:00Z (EDT, PDT, BST,
JST, AEST, GST). -/
def stdZoneDB : String → Option Zone := fun z =>
  if z = "UTC" then some (Zone.fixed 0)
  else if z = "America/New_York" then some (Zone.fixed (-240))
  else if z = "America/Los_Angeles" then some (Zone.fixed (-420))
  else if z = "Europe/London" then some (Zone.fixed 60)
  else if z = "Asia/Tokyo" then some (Zone.fixed 540)
  else if z = "Australia/Sydney" then some (Zone.fixed 600)
  else if z = "Asia/Dubai" then some (Zone.fixed 240)
  else none

/-- A host in the UTC zone at the example instant. -/
def envU : HostEnv :=
  { nowMs := 0, userTimeZone := "UTC", localZone := Zone.fixed 0,
    zoneDB := stdZoneDB }

/-- The spec's example input: 2025-06-12 12:00 at source offset UTC. -/
def s8 : AppState :=
  { eventDate := "2025-06-12", eventTime := "12:00",
    eventTimeZone := "UTC", convertedTimes := [] }

/-- A displayed record, used as a nonempty prior result list. -/
def sampleRecord : ConvertedTime :=
  { name := "Tokyo", zone := "Asia/Tokyo", flag := "🇯🇵",
    converted := "Jun 12, 2025, 9:00 PM", timeOnly := "9:00 PM",
    dateOnly := "Jun 12" }

/-- A state with an empty date field and a nonempty displayed list. -/
def s3prior : AppState :=
  { eventDate := "", eventTime := "14:30", eventTimeZone := "UTC",
    convertedTimes := [sampleRecord] }

/-- The same input as `s8` but with a different previously displayed
list. -/
def s8b : AppState :=
  { s8 with convertedTimes := [sampleRecord] }

/-- A host whose local zone sits at UTC+1 (e.g. Europe/London in
summer). -/
def envLondonSummer : HostEnv :=
  { nowMs := 0, userTimeZone := "Europe/London", localZone := Zone.fixed 60,
    zoneDB := stdZoneDB }

/-- America/New_York around the DST transition of 2025-11-02T06:00Z:
EDT (UTC−4) before, EST (UTC−5) after. -/
def nyZone2025 : Zone :=
  { before := -240, after := -300, transition := 1762063200000 }

/-- Host zone database snapshot with the offsets valid around
2025-11-02 (EST/PST/GMT/JST/AEDT/GST), New York with its transition. -/
def fallZoneDB : String → Option Zone := fun z =>
  if z = "America/New_York" then some nyZone2025
  else if z = "UTC" then some (Zone.fixed 0)
  else if z = "America/Los_Angeles" then some (Zone.fixed (-480))
  else if z = "Europe/London" then some (Zone.fixed 0)
  else if z = "Asia/Tokyo" then some (Zone.fixed 540)
  else if z = "Australia/Sydney" then some (Zone.fixed 660)
  else if z = "Asia/Dubai" then some (Zone.fixed 240)
  else none

/-- A New York host whose clock reads 2025-11-01T18:00Z (14:00 EDT),
the day before the fall-back transition. -/
def envNY : HostEnv :=
  { nowMs := 1762020000000, userTimeZone := "America/New_York",
    localZone := nyZone2025, zoneDB := fallZoneDB }

/-- Input state for the quick-fill scenario: offset picker on UTC. -/
def sC4 : AppState :=
  { eventDate := "2025-11-01", eventTime := "14:00",
    eventTimeZone := "UTC", convertedTimes := [] }

/-- A UTC host whose clock reads 2025-06-12T00:00Z exactly. -/
def envC4w : HostEnv :=
  { envU with nowMs := 1749686400000 }

/-- A zone database in which exactly one catalog identifier
(Asia/Tokyo) is unrecognized by the host. -/
def dbNoTokyo : String → Option Zone := fun z =>
  if z = "Asia/Tokyo" then none else stdZoneDB z

/-- The UTC host of `envU` with the `dbNoTokyo` database. -/
def env5 : HostEnv :=
  { envU with zoneDB := dbNoTokyo }

/-! ## Calendar and zone lemmas -/

theorem dayFromYear_bracket (day : Int) :
    dayFromYear (yearOf day) ≤ day ∧ day < dayFromYear (yearOf day + 1) := by
  simp only [yearOf, dayFromYear]
  split
  · simp only [Int.sub_add_cancel]
    omega
  · split
    · omega
    · omega

theorem dayFromYear_succ (y : Int) :
    dayFromYear (y + 1) - dayFromYear y = 365 + leapDays y := by
  simp only [dayFromYear, leapDays, isLeap]
  split <;> rename_i h <;>
    simp only [Bool.or_eq_true, Bool.and_eq_true, bne_iff_ne, ne_eq,
      decide_eq_true_eq, not_or, not_and, Bool.not_eq_true] at h <;>
    omega

theorem leapDays_bounds (y : Int) : 0 ≤ leapDays y ∧ leapDays y ≤ 1 := by
  simp only [leapDays]
  split <;> omega

/-- The calendar reading of a day number reassembles to the same day
number (ES `MakeDay` inverts the field readers). -/
theorem daysFromCivil_civilFromDays (z : Int) :
    daysFromCivil (civilFromDays z).1 (civilFromDays z).2.1
      (civilFromDays z).2.2 = z := by
  simp only [civilFromDays, daysFromCivil]
  generalize monthStart (leapDays (yearOf z))
    (monthFromDwy (leapDays (yearOf z)) (z - dayFromYear (yearOf z))) = M
  omega

set_option maxHeartbeats 1000000 in
/-- The month and day-of-month read from a day-within-year are a valid
calendar date: month in 1..12, day in 1..days-in-that-month. -/
theorem month_day_valid (leap dwy : Int) (hl0 : 0 ≤ leap) (hl1 : leap ≤ 1)
    (h0 : 0 ≤ dwy) (h1 : dwy < 365 + leap) :
    1 ≤ monthFromDwy leap dwy ∧ monthFromDwy leap dwy ≤ 12 ∧
    1 ≤ dwy - monthStart leap (monthFromDwy leap dwy) + 1 ∧
    dwy - monthStart leap (monthFromDwy leap dwy) + 1 ≤
      monthStart leap (monthFromDwy leap dwy + 1)
        - monthStart leap (monthFromDwy leap dwy) := by
  unfold monthFromDwy monthStart
  omega

/-- The civil date read from any day number is a valid calendar date. -/
theorem civilFromDays_valid (z : Int) :
    1 ≤ (civilFromDays z).2.1 ∧ (civilFromDays z).2.1 ≤ 12 ∧
    1 ≤ (civilFromDays z).2.2 ∧
    (civilFromDays z).2.2
      ≤ daysInMonth (civilFromDays z).1 (civilFromDays z).2.1 := by
  obtain ⟨hb1, hb2⟩ := dayFromYear_bracket z
  have hs := dayFromYear_succ (yearOf z)
  obtain ⟨hl0, hl1⟩ := leapDays_bounds (yearOf z)
  have hm := month_day_valid (leapDays (yearOf z)) (z - dayFromYear (yearOf z))
    hl0 hl1 (by omega) (by omega)
  simp only [civilFromDays, daysInMonth]
  exact ⟨hm.1, hm.2.1, hm.2.2.1, hm.2.2.2⟩

theorem Zone.utcFromLocal_fixed (c localMs : Int) :
    (Zone.fixed c).utcFromLocal localMs = localMs - c * 60000 := by
  simp only [Zone.utcFromLocal, Zone.fixed]
  split <;> rfl

theorem Zone.offsetAt_fixed (c t : Int) :
    (Zone.fixed c).offsetAt t = c := by
  unfold Zone.offsetAt Zone.fixed
  split <;> rfl

/-! ## String encoding and parsing lemmas -/

theorem digitChar_facts : ∀ d : Nat, d < 10 →
    (Nat.digitChar d).toNat - 48 = d ∧ (Nat.digitChar d).isDigit = true ∧
    Nat.digitChar d ≠ '-' ∧ Nat.digitChar d ≠ ':' := by decide

theorem padDigits_length (w : Nat) : ∀ n, (padDigits w n).length = w := by
  induction w with
  | zero => intro n; rfl
  | succ w ih =>
    intro n
    simp [padDigits, ih]

theorem padDigits_digits (w : Nat) : ∀ n c, c ∈ padDigits w n →
    c.isDigit = true ∧ c ≠ '-' ∧ c ≠ ':' := by
  induction w with
  | zero => intro n c h; cases h
  | succ w ih =>
    intro n c h
    simp only [padDigits, List.mem_append, List.mem_singleton] at h
    rcases h with h | h
    · exact ih (n / 10) c h
    · subst h
      have := digitChar_facts (n % 10) (Nat.mod_lt n (by omega))
      exact ⟨this.2.1, this.2.2.1, this.2.2.2⟩

theorem decDigits_append_one (l : List Char) (c : Char) :
    decDigits (l ++ [c]) = 10 * decDigits l + (c.toNat - 48) := by
  simp [decDigits, List.foldl_append]

theorem decDigits_padDigits (w : Nat) : ∀ n, n < 10 ^ w →
    decDigits (padDigits w n) = n := by
  induction w with
  | zero =>
    intro n h
    simp [pow_zero] at h
    simp [h, padDigits, decDigits]
  | succ w ih =>
    intro n h
    have hdiv : n / 10 < 10 ^ w := by
      rw [Nat.div_lt_iff_lt_mul (by omega)]
      calc n < 10 ^ (w + 1) := h
      _ = 10 ^ w * 10 := by ring
    have hchar := (digitChar_facts (n % 10) (Nat.mod_lt n (by omega))).1
    simp only [padDigits, decDigits_append_one, ih (n / 10) hdiv, hchar]
    omega

theorem splitOnChar_no_sep (sep : Char) : ∀ xs : List Char,
    (∀ c ∈ xs, c ≠ sep) → splitOnChar sep xs = [xs] := by
  intro xs
  induction xs with
  | nil => intro _; rfl
  | cons a l ih =>
    intro h
    have ha : a ≠ sep := h a (by simp)
    simp only [splitOnChar, if_neg ha, ih (fun c hc => h c (by simp [hc]))]

theorem splitOnChar_append (sep : Char) : ∀ (xs rest : List Char),
    (∀ c ∈ xs, c ≠ sep) →
    splitOnChar sep (xs ++ sep :: rest) = xs :: splitOnChar sep rest := by
  intro xs
  induction xs with
  | nil =>
    intro rest _
    simp [splitOnChar]
  | cons a l ih =>
    intro rest h
    have ha : a ≠ sep := h a (by simp)
    have hr := ih rest (fun c hc => h c (by simp [hc]))
    simp only [List.cons_append, splitOnChar, if_neg ha, List.append_eq, hr]

/-- Every month is at most 31 days long. -/
theorem daysInMonth_le (y m : Int) (hm0 : 1 ≤ m) (hm1 : m ≤ 12) :
    daysInMonth y m ≤ 31 := by
  have := leapDays_bounds y
  simp only [daysInMonth]
  unfold monthStart
  omega

/-- The generated `YYYY-MM-DD` string parses back to the same valid
fields. -/
theorem parseDateChars_iso (c : Civil) (hy0 : 0 ≤ c.year) (hy1 : c.year ≤ 9999)
    (hm0 : 1 ≤ c.month) (hm1 : c.month ≤ 12) (hd0 : 1 ≤ c.day)
    (hd1 : c.day ≤ daysInMonth c.year c.month) :
    parseDateChars (isoDateChars c) = some (c.year, c.month, c.day) := by
  have hdm : c.day ≤ 99 := by
    have := daysInMonth_le c.year c.month hm0 hm1
    omega
  have hy4 : c.year.toNat < 10 ^ 4 := by omega
  have hm2 : c.month.toNat < 10 ^ 2 := by omega
  have hd2 : c.day.toNat < 10 ^ 2 := by omega
  have nd4 := padDigits_digits 4 c.year.toNat
  have nd2m := padDigits_digits 2 c.month.toNat
  have nd2d := padDigits_digits 2 c.day.toNat
  have halld : ((padDigits 4 c.year.toNat ++ padDigits 2 c.month.toNat
      ++ padDigits 2 c.day.toNat).all Char.isDigit) = true := by
    simp only [List.all_eq_true, List.mem_append]
    intro ch hc
    rcases hc with (hc | hc) | hc
    · exact (nd4 ch hc).1
    · exact (nd2m ch hc).1
    · exact (nd2d ch hc).1
  simp only [isoDateChars, parseDateChars]
  rw [splitOnChar_append '-' _ _ (fun ch hc => (nd4 ch hc).2.1),
    splitOnChar_append '-' _ _ (fun ch hc => (nd2m ch hc).2.1),
    splitOnChar_no_sep '-' _ (fun ch hc => (nd2d ch hc).2.1)]
  dsimp only
  rw [if_pos ⟨padDigits_length 4 c.year.toNat, padDigits_length 2 c.month.toNat,
    padDigits_length 2 c.day.toNat, halld⟩]
  rw [decDigits_padDigits 4 c.year.toNat hy4,
    decDigits_padDigits 2 c.month.toNat hm2,
    decDigits_padDigits 2 c.day.toNat hd2,
    Int.toNat_of_nonneg hy0, Int.toNat_of_nonneg (by omega : (0:Int) ≤ c.month),
    Int.toNat_of_nonneg (by omega : (0:Int) ≤ c.day)]
  rw [if_pos ⟨hm0, hm1, hd0, hd1⟩]

/-- The generated `HH:MM` string parses back to the same fields. -/
theorem parseTimeChars_hm (c : Civil) (hh0 : 0 ≤ c.hour) (hh1 : c.hour ≤ 23)
    (hmin0 : 0 ≤ c.minute) (hmin1 : c.minute ≤ 59) :
    parseTimeChars (hmChars c) = some (c.hour, c.minute) := by
  have hh2 : c.hour.toNat < 10 ^ 2 := by omega
  have hm2 : c.minute.toNat < 10 ^ 2 := by omega
  have ndh := padDigits_digits 2 c.hour.toNat
  have ndm := padDigits_digits 2 c.minute.toNat
  have halld : ((padDigits 2 c.hour.toNat ++ padDigits 2 c.minute.toNat).all
      Char.isDigit) = true := by
    simp only [List.all_eq_true, List.mem_append]
    intro ch hc
    rcases hc with hc | hc
    · exact (ndh ch hc).1
    · exact (ndm ch hc).1
  simp only [hmChars, parseTimeChars]
  rw [splitOnChar_append ':' _ _ (fun ch hc => (ndh ch hc).2.2),
    splitOnChar_no_sep ':' _ (fun ch hc => (ndm ch hc).2.2)]
  dsimp only
  rw [if_pos ⟨padDigits_length 2 c.hour.toNat, padDigits_length 2 c.minute.toNat,
    halld⟩]
  rw [decDigits_padDigits 2 c.hour.toNat hh2,
    decDigits_padDigits 2 c.minute.toNat hm2,
    Int.toNat_of_nonneg hh0, Int.toNat_of_nonneg hmin0]
  rw [if_pos ⟨hh1, hmin1⟩]

/-! ## Conversion pipeline lemmas and the claims -/

theorem mapThrow_some_map {α β : Type} (f : α → Option β) (g : β → α)
    (hfg : ∀ a b, f a = some b → g b = a) :
    ∀ (l : List α) (r : List β), mapThrow f l = some r → r.map g = l := by
  intro l
  induction l with
  | nil =>
    intro r h
    simp only [mapThrow] at h
    cases h
    rfl
  | cons a l ih =>
    intro r h
    simp only [mapThrow] at h
    cases hfa : f a with
    | none => rw [hfa] at h; cases h
    | some b =>
      rw [hfa] at h
      cases hrec : mapThrow f l with
      | none => rw [hrec] at h; cases h
      | some r2 =>
        rw [hrec] at h
        simp only [Option.map_some] at h
        cases h
        simp only [List.map_cons, ih r2 hrec, hfg a b hfa]

theorem mapThrow_none_of_mem {α β : Type} (f : α → Option β) :
    ∀ (l : List α) (a : α), a ∈ l → f a = none → mapThrow f l = none := by
  intro l
  induction l with
  | nil => intro a ha; cases ha
  | cons x l ih =>
    intro a ha hfa
    rcases List.mem_cons.mp ha with h | h
    · subst h
      simp [mapThrow, hfa]
    · simp only [mapThrow]
      cases hfx : f x with
      | none => rfl
      | some b => rw [ih a h hfa]; rfl

theorem formatRecord_entry (z : Zone) (t : Int) (tz : TimeZone) :
    (formatRecord z t tz).toTimeZone = tz := rfl

/-- C2: a successful conversion emits exactly one record per input zone,
in order: the viewer record first, then the catalog entries unchanged —
7 records for the fixed 6-entry catalog. -/
theorem c2_output_shape (env : HostEnv) (d t z : String)
    (l : List ConvertedTime) (h : tryConvert env d t z = some l) :
    l.length = 1 + popularTimeZones.length ∧ l.length = 7 ∧
    l.map (fun r => r.toTimeZone) = allTimeZones env := by
  simp only [tryConvert] at h
  cases ha : anchorMs env d t z with
  | none => rw [ha] at h; cases h
  | some e =>
    rw [ha] at h
    simp only [Option.some_bind, formatAll] at h
    have hmap := mapThrow_some_map
      (fun tz => (env.zoneDB tz.zone).map (fun zo => formatRecord zo e tz))
      (fun r => r.toTimeZone)
      (by
        intro a b hb
        dsimp only at hb
        cases hz : env.zoneDB a.zone with
        | none => rw [hz] at hb; cases hb
        | some zo =>
          rw [hz] at hb
          simp only [Option.map_some'] at hb
          cases hb
          rfl)
      (allTimeZones env) l h
    refine ⟨?_, ?_, hmap⟩
    · have := congrArg List.length hmap
      simpa [allTimeZones] using this
    · have := congrArg List.length hmap
      simpa [allTimeZones] using this

/-- C2 witness: the example conversion emits seven records, the viewer
record followed by the six catalog entries. -/
theorem c2_output_shape_witness :
    (tryConvert envU "2025-06-12" "12:00" "UTC").map
      (fun l => (l.length, l.map (fun r => r.toTimeZone)))
      = some (7, allTimeZones envU) := by
  cases h : tryConvert envU "2025-06-12" "12:00" "UTC" with
  | none => exact absurd h (by decide)
  | some l =>
    have hc := c2_output_shape envU "2025-06-12" "12:00" "UTC" l h
    simp [hc.2.1, hc.2.2]


/-- C5 (amended): when any target zone identifier is unrecognized by the
host, the whole batch aborts: the state (and so the displayed list) is
left unchanged, and when the abort happens inside the `try` block the
only output is the console diagnostic. -/
theorem c5_amended (env : HostEnv) (s : AppState) (e : TimeZone)
    (he : e ∈ allTimeZones env) (hz : env.zoneDB e.zone = none) :
    convertTimes env s = s ∧
    (s.eventDate ≠ "" → s.eventTime ≠ "" →
      (anchorMs env s.eventDate s.eventTime s.eventTimeZone).isSome = true →
      (convertTimesFull env s).2 = ["Conversion error:"]) := by
  have hfe : (fun tz =>
      (env.zoneDB tz.zone).map (fun zo => formatRecord zo 0 tz)) e = none := by
    simp [hz]
  have hnone : ∀ a : Int, formatAll env a = none := by
    intro a
    exact mapThrow_none_of_mem _ (allTimeZones env) e he (by simp [hz])
  have htry : tryConvert env s.eventDate s.eventTime s.eventTimeZone = none := by
    simp only [tryConvert]
    cases ha : anchorMs env s.eventDate s.eventTime s.eventTimeZone with
    | none => rfl
    | some a => simp [Option.some_bind, hnone a]
  constructor
  · simp only [convertTimes, convertTimesFull]
    split
    · rfl
    · rw [htry]
  · intro hd ht _
    simp only [convertTimesFull]
    rw [if_neg (by simp [hd, ht]), htry]

/-- C5 counterexample: with Asia/Tokyo alone unrecognized, the
conversion emits no record at all (the prior, empty list stays) instead
of records for the six remaining zones. -/
theorem c5_counterexample :
    env5.zoneDB "Asia/Tokyo" = none ∧
    (∀ tz ∈ popularTimeZones, tz.zone ≠ "Asia/Tokyo" →
      (env5.zoneDB tz.zone).isSome = true) ∧
    convertTimesFull env5 s8 = (s8, ["Conversion error:"]) ∧
    (convertTimes env5 s8).convertedTimes.length = 0 := by decide

/-- C5 witness: the abort behaviour at the concrete broken catalog. -/
theorem c5_amended_witness :
    convertTimes env5 s8 = s8 ∧ (convertTimesFull env5 s8).2 = ["Conversion error:"] := by
  have h := c5_amended env5 s8
    { name := "Tokyo", zone := "Asia/Tokyo", flag := "🇯🇵" }
    (by decide) (by decide)
  exact ⟨h.1, h.2 (by decide) (by decide) (by decide)⟩

/-- C6: the emitted output depends only on the three input fields and
the host environment: two invocations on identical inputs (same host
clock, zone and zone database) produce identical output lists, whatever
else (such as the previously displayed list) differs. -/
theorem c6_deterministic (env : HostEnv) (s s' : AppState)
    (hd : s.eventDate = s'.eventDate) (ht : s.eventTime = s'.eventTime)
    (hz : s.eventTimeZone = s'.eventTimeZone) :
    tryConvert env s.eventDate s.eventTime s.eventTimeZone
      = tryConvert env s'.eventDate s'.eventTime s'.eventTimeZone := by
  rw [hd, ht, hz]

/-- C6 witness: two states with the same inputs but different displayed
lists produce the same output. -/
theorem c6_deterministic_witness :
    tryConvert envU s8.eventDate s8.eventTime s8.eventTimeZone
      = tryConvert envU s8b.eventDate s8b.eventTime s8b.eventTimeZone ∧
    s8.convertedTimes ≠ s8b.convertedTimes :=
  ⟨c6_deterministic envU s8 s8b rfl rfl rfl, by decide⟩

/-- C9: the first record of every successful conversion is the viewer
record, carrying the zone identifier the host environment reports at
that call (the identifier is read from the environment on each call,
never from previous output). -/
theorem mapThrow_cons_some {α β : Type} (f : α → Option β) (a : α)
    (l : List α) (r : List β) (h : mapThrow f (a :: l) = some r) :
    ∃ b t, f a = some b ∧ mapThrow f l = some t ∧ r = b :: t := by
  simp only [mapThrow] at h
  cases hfa : f a with
  | none => rw [hfa] at h; cases h
  | some b =>
    rw [hfa] at h
    cases ht : mapThrow f l with
    | none => rw [ht] at h; cases h
    | some t =>
      rw [ht] at h
      simp only [Option.map_some', Option.some.injEq] at h
      exact ⟨b, t, rfl, rfl, h.symm⟩

theorem c9_viewer_first (env : HostEnv) (d t z : String)
    (l : List ConvertedTime) (h : tryConvert env d t z = some l) :
    ∃ r rest, l = r :: rest ∧ r.zone = env.userTimeZone ∧
      r.isLocal = true ∧ r.name = "Your Local Time" := by
  simp only [tryConvert] at h
  cases ha : anchorMs env d t z with
  | none => rw [ha] at h; cases h
  | some e =>
    rw [ha] at h
    simp only [Option.some_bind, formatAll, allTimeZones] at h
    obtain ⟨b, t, hfb, _, hl⟩ := mapThrow_cons_some _ _ _ _ h
    cases hz : env.zoneDB env.userTimeZone with
    | none => simp [hz] at hfb
    | some zz =>
      rw [hz] at hfb
      simp only [Option.map_some'] at hfb
      cases hfb
      exact ⟨_, t, hl, rfl, rfl, rfl⟩

/-- C9 witness: at the example input on a UTC host, the head record is
the viewer record for the reported identifier. -/
theorem c9_viewer_first_witness :
    (tryConvert envU "2025-06-12" "12:00" "UTC").map
      (fun l => l.head?.map (fun r => (r.zone, r.isLocal, r.name)))
      = some (some ("UTC", true, "Your Local Time")) := by
  cases h : tryConvert envU "2025-06-12" "12:00" "UTC" with
  | none => exact absurd h (by decide)
  | some l =>
    obtain ⟨r, rest, h1, h2, h3, h4⟩ := c9_viewer_first envU _ _ _ l h
    simp only [h1, h2, h3, h4, List.head?, Option.map_some']
    rfl


/-- C1 (code evaluation at the failing input): on a host at UTC+1
(Europe/London in summer), the anchor computed for 2025-06-12 14:30 at
source offset 0 is `parseAsUTC − 1h`, not the `parseAsUTC` the claim
(and the code's own "Create event datetime in UTC" comment) require:
ECMA-262 parses a date-time string without a UTC designator as host
local time. -/
theorem c1_anchor_local_parse :
    anchorMs envLondonSummer "2025-06-12" "14:30" "UTC"
      = some (civilToMs ⟨2025, 6, 12, 14, 30, 0⟩ - 3600000) ∧
    anchorMs envLondonSummer "2025-06-12" "14:30" "UTC"
      ≠ some (civilToMs ⟨2025, 6, 12, 14, 30, 0⟩ - 0 * 3600000) := by decide

/-- C3 counterexample: at the empty date field the conversion returns
with the state unchanged and emits no message of any kind — the claim's
"the caller is told why via a human-readable message" fails for the
offset-picker variant. -/
theorem c3_counterexample :
    s3prior.eventDate = "" ∧
    convertTimesFull envU s3prior = (s3prior, ([] : List String)) := by decide

/-- C3 (amended): on empty or unparseable input no instant is produced,
no record is emitted and the displayed list is left unchanged; but only
the free-text variant surfaces a human-readable message — the
offset-picker variant returns silently on missing fields (and logs only
a console diagnostic for unparseable values). -/
theorem c3_amended (env : HostEnv) (s : AppState)
    (h : s.eventDate = "" ∨ s.eventTime = ""
      ∨ parseEventDateTime s.eventDate s.eventTime = none) :
    convertTimes env s = s ∧
    (s.eventDate = "" ∨ s.eventTime = "" → (convertTimesFull env s).2 = []) ∧
    handleConvertGuard "" = some "Please enter an event time" := by
  refine ⟨?_, ?_, by decide⟩
  · simp only [convertTimes, convertTimesFull]
    split
    · rfl
    · rename_i hg
      have hp : parseEventDateTime s.eventDate s.eventTime = none := by
        rcases h with h | h | h
        · exact absurd (Or.inl h) hg
        · exact absurd (Or.inr h) hg
        · exact h
      simp [tryConvert, anchorMs, eventInstant, hp]
  · intro hg
    simp only [convertTimesFull]
    rw [if_pos hg]

/-- C3 amended witness: the concrete empty-date state is left unchanged
with no console output, while the free-text guard carries a message. -/
theorem c3_amended_witness :
    convertTimes envU s3prior = s3prior ∧
    (convertTimesFull envU s3prior).2 = [] ∧
    handleConvertGuard "" = some "Please enter an event time" := by
  have h := c3_amended envU s3prior (Or.inl (by decide))
  exact ⟨h.1, h.2.1 (Or.inl (by decide)), h.2.2⟩

/-- C7: every selectable offset label parses to a whole number of hours
in [−12, +12]; the boundary labels shift the anchor by exactly ±12 h
without any wrap; and every anchor produced from a catalog label is the
parsed instant minus a whole-hour offset in that range — no fractional
offset is expressible or silently accepted. -/
theorem c7_whole_hour_offsets :
    (∀ lab ∈ utcOffsets, ∃ k : Int,
      offsetHoursOf lab = some k ∧ -12 ≤ k ∧ k ≤ 12) ∧
    (∀ (env : HostEnv) (d t : String) (e : Int),
      eventInstant env d t = some e →
      anchorMs env d t "UTC+12" = some (e - 12 * 3600000) ∧
      anchorMs env d t "UTC-12" = some (e + 12 * 3600000)) ∧
    (∀ (env : HostEnv) (d t z : String) (a : Int), z ∈ utcOffsets →
      anchorMs env d t z = some a →
      ∃ e k, eventInstant env d t = some e ∧ -12 ≤ k ∧ k ≤ 12 ∧
        a = e - k * 3600000) := by
  refine ⟨by decide, ?_, ?_⟩
  · intro env d t e he
    constructor
    · simp [anchorMs, he, show offsetHoursOf "UTC+12" = some 12 by decide]
    · simp only [anchorMs, he, Option.some_bind,
        show offsetHoursOf "UTC-12" = some (-12) by decide, Option.map_some',
        Option.some.injEq]
      ring
  · intro env d t z a hz ha
    simp only [anchorMs] at ha
    cases he : eventInstant env d t with
    | none => rw [he] at ha; cases ha
    | some e =>
      rw [he] at ha
      simp only [Option.some_bind] at ha
      cases hk : offsetHoursOf z with
      | none => rw [hk] at ha; cases ha
      | some k =>
        rw [hk] at ha
        simp only [Option.map_some', Option.some.injEq] at ha
        have hb : -12 ≤ k ∧ k ≤ 12 := by
          have : ∀ lab ∈ utcOffsets, ∃ k2 : Int,
              offsetHoursOf lab = some k2 ∧ -12 ≤ k2 ∧ k2 ≤ 12 := by decide
          obtain ⟨k2, hk2, hb2⟩ := this z hz
          rw [hk] at hk2
          cases hk2
          exact hb2
        exact ⟨e, k, rfl, hb.1, hb.2, ha.symm⟩

/-- C7 witness: the boundary labels at the example instant. -/
theorem c7_whole_hour_offsets_witness :
    anchorMs envU "2025-06-12" "12:00" "UTC+12"
      = some (1749729600000 - 12 * 3600000) ∧
    anchorMs envU "2025-06-12" "12:00" "UTC-12"
      = some (1749729600000 + 12 * 3600000) :=
  c7_whole_hour_offsets.2.1 envU "2025-06-12" "12:00" 1749729600000 (by decide)

/-- C8: the example conversion (anchor 2025-06-12T12:00, source offset
0, UTC host): New York shows 8:00 AM Jun 12, London 1:00 PM Jun 12,
Tokyo 9:00 PM Jun 12. -/
theorem c8_example_records :
    ((convertTimes envU s8).convertedTimes.map
      (fun r => (r.name, r.timeOnly, r.dateOnly)))[1]?
      = some ("New York", "8:00 AM", "Jun 12") ∧
    ((convertTimes envU s8).convertedTimes.map
      (fun r => (r.name, r.timeOnly, r.dateOnly)))[3]?
      = some ("London", "1:00 PM", "Jun 12") ∧
    ((convertTimes envU s8).convertedTimes.map
      (fun r => (r.name, r.timeOnly, r.dateOnly)))[4]?
      = some ("Tokyo", "9:00 PM", "Jun 12") := by decide

/-- C10: the offset-extraction expression
`parseInt(label.replace("UTC", "") || "0")` is total on the enumerated
labels and returns exactly the denoted integer; the bare "UTC" label
falls back to "0" and yields 0; no label yields NaN (`none`). -/
theorem c10_offset_extraction_total :
    utcOffsets.map offsetHoursOf =
      [some (-12), some (-11), some (-10), some (-9), some (-8), some (-7),
       some (-6), some (-5), some (-4), some (-3), some (-2), some (-1),
       some 0, some 1, some 2, some 3, some 4, some 5, some 6, some 7,
       some 8, some 9, some 10, some 11, some 12] ∧
    offsetHoursOf "UTC" = some 0 := by decide


theorem msToCivil_time_bounds (t : Int) :
    0 ≤ (msToCivil t).hour ∧ (msToCivil t).hour ≤ 23 ∧
    0 ≤ (msToCivil t).minute ∧ (msToCivil t).minute ≤ 59 := by
  simp only [msToCivil]
  omega

theorem msToCivil_date_valid (t : Int) :
    1 ≤ (msToCivil t).month ∧ (msToCivil t).month ≤ 12 ∧
    1 ≤ (msToCivil t).day ∧
    (msToCivil t).day ≤ daysInMonth (msToCivil t).year (msToCivil t).month := by
  simpa only [msToCivil] using civilFromDays_valid (t / 86400000)

/-- Reassembling a date read at `J` with a time read at `K` yields `K`
whenever both instants fall on the same calendar day and `K` is
minute-aligned. -/
theorem civil_reconstruct_mixed (J K : Int)
    (hdate : K / 86400000 = J / 86400000) (hK : K % 60000 = 0) :
    civilToMs { year := (msToCivil J).year, month := (msToCivil J).month,
                day := (msToCivil J).day, hour := (msToCivil K).hour,
                minute := (msToCivil K).minute, second := 0 } = K := by
  simp only [civilToMs, msToCivil]
  rw [daysFromCivil_civilFromDays (J / 86400000)]
  omega

/-- The `YYYY-MM-DD` of the UTC fields of `J` and the `HH:MM` of the
fields of `K` parse back to exactly those fields. -/
theorem parseEventDateTime_gen (J K : Int)
    (hy0 : 0 ≤ (msToCivil J).year) (hy1 : (msToCivil J).year ≤ 9999) :
    parseEventDateTime (String.mk (isoDateChars (msToCivil J)))
        (String.mk (hmChars (msToCivil K)))
      = some { year := (msToCivil J).year, month := (msToCivil J).month,
               day := (msToCivil J).day, hour := (msToCivil K).hour,
               minute := (msToCivil K).minute, second := 0 } := by
  obtain ⟨hm0, hm1, hd0, hd1⟩ := msToCivil_date_valid J
  obtain ⟨hh0, hh1, hmin0, hmin1⟩ := msToCivil_time_bounds K
  have hdate := parseDateChars_iso (msToCivil J) hy0 hy1 hm0 hm1 hd0 hd1
  have htime := parseTimeChars_hm (msToCivil K) hh0 hh1 hmin0 hmin1
  simp only [parseEventDateTime, String.data]
  rw [hdate, htime]

theorem isoDateChars_length (c : Civil) : (isoDateChars c).length = 10 := by
  simp [isoDateChars, padDigits_length]

theorem hmChars_length (c : Civil) : (hmChars c).length = 5 := by
  simp [hmChars, padDigits_length]

theorem stringMk_ne_empty (l : List Char) (h : l.length ≠ 0) :
    String.mk l ≠ "" := by
  intro he
  exact h (by simpa using congrArg (fun s => s.data.length) he)

/-- C4 counterexample: on a New York host the evening before the
2025-11-02 fall-back transition, the Tomorrow quick fill (24 h) formats
different per-zone results from the anchor `now + 24 h` at offset 0 —
`setHours(+24)` is wall-clock arithmetic, which lands one hour later
across the transition (Tokyo shows 4:00 AM instead of 3:00 AM). -/
theorem c4_counterexample :
    (quickFillAndConvert envNY 24 sC4).convertedTimes ≠
      (formatAll envNY (envNY.nowMs + 24 * 3600000)).getD sC4.convertedTimes ∧
    ((quickFillAndConvert envNY 24 sC4).convertedTimes.map
      (fun r => (r.name, r.timeOnly)))[4]? = some ("Tokyo", "4:00 AM") ∧
    (((formatAll envNY (envNY.nowMs + 24 * 3600000)).getD
      sC4.convertedTimes).map (fun r => (r.name, r.timeOnly)))[4]?
      = some ("Tokyo", "3:00 AM") := by decide

set_option simprocs false in
/-- C4 (amended): the Tomorrow quick fill yields the same formatted
per-zone results as manually supplying the anchor `now + 24 h` with
source offset 0, provided the host zone's offset is the same constant
across the span (no daylight-saving transition intervenes), the host
clock is minute-aligned, and the host zone's local calendar date at the
target instant agrees with its UTC calendar date; across a transition
the quick fill instead anchors at the same wall-clock time next day, as
`c4_counterexample` exhibits. -/
theorem c4_amended (env : HostEnv) (s : AppState) (c : Int)
    (hz : env.localZone = Zone.fixed c)
    (halign : env.nowMs % 60000 = 0)
    (htz : s.eventTimeZone = "UTC")
    (hy0 : 0 ≤ (msToCivil (env.nowMs + 24 * 3600000)).year)
    (hy1 : (msToCivil (env.nowMs + 24 * 3600000)).year ≤ 9999)
    (hdate : (env.nowMs + 24 * 3600000 + c * 60000) / 86400000
      = (env.nowMs + 24 * 3600000) / 86400000) :
    (quickFillAndConvert env 24 s).convertedTimes
      = (formatAll env (env.nowMs + 24 * 3600000)).getD s.convertedTimes := by
  have ht : (Zone.fixed c).utcFromLocal
      (env.nowMs + c * 60000 + 24 * 3600000)
      = env.nowMs + 24 * 3600000 := by
    rw [Zone.utcFromLocal_fixed]
    ring
  have hqf : handleQuickFill env 24 s =
      { s with
        eventDate :=
          String.mk (isoDateChars (msToCivil (env.nowMs + 24 * 3600000))),
        eventTime :=
          String.mk (hmChars (msToCivil
            (env.nowMs + 24 * 3600000 + c * 60000))) } := by
    simp only [handleQuickFill, formatDateTime, hz, ht, Zone.offsetAt_fixed]
  have hparse := parseEventDateTime_gen (env.nowMs + 24 * 3600000)
    (env.nowMs + 24 * 3600000 + c * 60000) hy0 hy1
  have hK : (env.nowMs + 24 * 3600000 + c * 60000) % 60000 = 0 := by omega
  have hrec := civil_reconstruct_mixed (env.nowMs + 24 * 3600000)
    (env.nowMs + 24 * 3600000 + c * 60000) hdate hK
  have hinst : eventInstant env
      (String.mk (isoDateChars (msToCivil (env.nowMs + 24 * 3600000))))
      (String.mk (hmChars (msToCivil (env.nowMs + 24 * 3600000 + c * 60000))))
      = some (env.nowMs + 24 * 3600000) := by
    simp only [eventInstant, hparse, Option.map_some', hz,
      Zone.utcFromLocal_fixed, hrec]
    congr 1
    omega
  have hanchor : anchorMs env
      (String.mk (isoDateChars (msToCivil (env.nowMs + 24 * 3600000))))
      (String.mk (hmChars (msToCivil (env.nowMs + 24 * 3600000 + c * 60000))))
      "UTC" = some (env.nowMs + 24 * 3600000) := by
    simp only [anchorMs, hinst, Option.some_bind,
      show offsetHoursOf "UTC" = some 0 by decide, Option.map_some']
    norm_num
  have hde : String.mk (isoDateChars (msToCivil (env.nowMs + 24 * 3600000)))
      ≠ "" :=
    stringMk_ne_empty _ (by rw [isoDateChars_length]; omega)
  have hte : String.mk (hmChars (msToCivil
      (env.nowMs + 24 * 3600000 + c * 60000))) ≠ "" :=
    stringMk_ne_empty _ (by rw [hmChars_length]; omega)
  simp only [quickFillAndConvert, hqf, convertTimes, convertTimesFull]
  rw [if_neg (by simp [hde, hte])]
  simp only [tryConvert, htz, hanchor, Option.some_bind]
  cases hfa : formatAll env (env.nowMs + 24 * 3600000) with
  | none => simp [hfa]
  | some l => simp [hfa]

/-- C4 amended witness: on a UTC host at 2025-06-12T00:00Z the quick
fill matches the `now + 24 h` anchor. -/
theorem c4_amended_witness :
    (quickFillAndConvert envC4w 24 s8).convertedTimes
      = (formatAll envC4w (envC4w.nowMs + 24 * 3600000)).getD
          s8.convertedTimes :=
  c4_amended envC4w s8 0 (by decide) (by decide) (by decide) (by decide)
    (by decide) (by decide)

end TimeZoneApp
